import Mathlib

/-!
Shallow embedding of `azuread/table_azuread_custom_role.go` (the `azuread_custom_role`
table of the steampipe-plugin-azuread repository) and of the second copy of the same
table implementation (`src/unnamed/part_000`, embedded in namespace `Part000`).

Conventions of the embedding:
* Go pointers to SDK fields become `Option`; dereferencing a nil pointer is a Go
  panic, modelled by an `Option` result at the function level where `none` = panic.
* The Microsoft Graph SDK calls are modelled by a `GraphEnv` record that fixes the
  response (or error) each endpoint yields during one invocation.
* `plugin.Logger(...).Error(location, key, err)` calls are modelled by accumulating
  `LogEntry` values in the function result.
* `d.StreamListItem` is modelled by accumulating the streamed rows in a list.
* `d.RowsRemaining(ctx)` is modelled as a function of the number of rows streamed
  so far, carried by `QueryData`.
-/

/-- Model of the SDK `models.UnifiedRolePermissionable` object: three nilable fields
read by the table code. -/
structure UnifiedRolePermission where
  allowedResourceActions : Option (List String)
  excludedResourceActions : Option (List String)
  condition : Option String
  deriving Repr, DecidableEq

/-- Model of the SDK `models.UnifiedRoleDefinitionable` object restricted to the
fields the table code reads. -/
structure UnifiedRoleDefinition where
  id : Option String
  description : Option String
  displayName : Option String
  templateId : Option String
  isBuiltIn : Option Bool
  rolePermissions : List UnifiedRolePermission
  deriving Repr, DecidableEq

/-- Model of the SDK `models.UnifiedRoleAssignmentable` object restricted to the
two fields the table code reads. -/
structure UnifiedRoleAssignment where
  roleDefinitionId : Option String
  principalId : Option String
  deriving Repr, DecidableEq

/-- Vendor SDK error value. -/
structure GraphError where
  msg : String
  deriving Repr, DecidableEq

/-- One `plugin.Logger(ctx).Error(location, key, err)` call. -/
structure LogEntry where
  location : String
  key : String
  err : GraphError
  deriving Repr, DecidableEq

/-- The Microsoft Graph environment seen by one invocation: the outcome of
`GetGraphClient`, of `RoleManagement().Directory().RoleDefinitions().Get`,
of `RoleManagement().Directory().RoleAssignments().Get`, and of
`RoleDefinitions().ByUnifiedRoleDefinitionId(id).Get`. -/
structure GraphEnv where
  getClient : Except GraphError Unit
  roleDefinitions : Except GraphError (List UnifiedRoleDefinition)
  roleAssignments : Except GraphError (List UnifiedRoleAssignment)
  roleDefinitionById : String → Except GraphError UnifiedRoleDefinition

/-- The slice of `plugin.QueryData` the table code reads: the equals-qual on
column `id` (`none` models an absent qual, whose `GetStringValue()` is `""`),
and `RowsRemaining` as a function of the rows streamed so far. -/
structure QueryData where
  equalsQualId : Option String
  rowsRemainingFn : Nat → Int

/-- The hydrate item streamed by the table: Go struct `RoleDefinition`
(a role together with the correlated member ids). -/
structure RoleDefinition where
  role : UnifiedRoleDefinition
  members : List String
  deriving Repr, DecidableEq

/-- Modelled from the spec: `getErrorObject` is defined outside `src/` (only its
callers are in `src/`). The spec describes it as "Pass-through error classification
that forwards a vendor SDK error into a logging call", so it is modelled as the
pass-through of the vendor SDK error. -/
def getErrorObject (e : GraphError) : GraphError := e

/-- Modelled from the spec: `isIgnorableErrorPredicate` is defined outside `src/`
(only its caller `tableAzureAdCustomRole` is in `src/`). The spec describes it as
"an ignorable error predicate keyed by string matching on two known error codes":
it reports an error ignorable exactly when the error's code matches one of the
given codes. -/
def isIgnorableErrorPredicate (codes : List String) (errCode : String) : Bool :=
  codes.any (fun c => c == errCode)

/-- The `ShouldIgnoreErrorFunc` installed by `tableAzureAdCustomRole` in the table's
`GetConfig` (line 19 of both copies): `isIgnorableErrorPredicate` applied to the two
literal codes. -/
def tableAzureAdCustomRoleShouldIgnore (errCode : String) : Bool :=
  isIgnorableErrorPredicate ["Request_ResourceNotFound", "Invalid object identifier"] errCode

/-- The `found`-flag loop plus conditional append used by both deduplication loops:
append `x` to `acc` unless it already occurs there. -/
def insertNew (acc : List String) (x : String) : List String :=
  if acc.contains x then acc else acc ++ [x]

/-- The `ids` accumulation loop of `listAdCustomRoles` (lines 78-89 of the azuread
copy): for each assignment, dereference its `roleDefinitionId` (panic = `none` when
the pointer is nil) and insert it unless already present. -/
def buildIds : List UnifiedRoleAssignment → List String → Option (List String)
  | [], acc => some acc
  | a :: rest, acc =>
    match a.roleDefinitionId with
    | none => none
    | some rid => buildIds rest (insertNew acc rid)

/-- The assignment loop of `getMembersFromId` (lines 232-246 of the azuread copy):
dereference `roleDefinitionId` and `principalId` of every assignment (panic = `none`
when either pointer is nil), and insert the principal id unless already present when
the role definition id matches. -/
def membersLoop : List UnifiedRoleAssignment → String → List String → Option (List String)
  | [], _, acc => some acc
  | a :: rest, id, acc =>
    match a.roleDefinitionId, a.principalId with
    | some newId, some principalId =>
      membersLoop rest id (if newId == id then insertNew acc principalId else acc)
    | _, _ => none

/-- `getMembersFromId` of the azuread copy (lines 221-248): obtain a client, fetch
all role assignments — on fetch error the error is silently discarded (the
`todo fix` branch) and the nil response is dereferenced by the following loop,
i.e. the function panics (`none`) — then run the deduplicating member loop. -/
def getMembersFromId (env : GraphEnv) (id : String) :
    Option (List LogEntry × Except GraphError (List String)) :=
  match env.getClient with
  | .error e => some ([⟨"azuread_custom_role.listAdCustomRoles", "connection_error", e⟩], .error e)
  | .ok _ =>
    match env.roleAssignments with
    | .error _ => none
    | .ok assigns =>
      match membersLoop assigns id [] with
      | none => none
      | some ms => some ([], .ok ms)

/-- Inner loop over `ids` of `listAdCustomRoles` (azuread copy, lines 94-102): for
each correlated id equal to the role's dereferenced `templateId`, call
`getMembersFromId` (its error, if any, is ignored — `todo: add error log`) and
stream a `RoleDefinition` row. -/
def innerLoop (env : GraphEnv) (r : UnifiedRoleDefinition) :
    List String → List LogEntry → List RoleDefinition →
    Option (List LogEntry × List RoleDefinition)
  | [], logs, rows => some (logs, rows)
  | id :: rest, logs, rows =>
    match r.templateId with
    | none => none
    | some tid =>
      if id == tid then
        match getMembersFromId env id with
        | none => none
        | some (mlogs, .error _) => innerLoop env r rest (logs ++ mlogs) (rows ++ [⟨r, []⟩])
        | some (mlogs, .ok ms) => innerLoop env r rest (logs ++ mlogs) (rows ++ [⟨r, ms⟩])
      else innerLoop env r rest logs rows

/-- Outer loop over the fetched role definitions of `listAdCustomRoles` (azuread
copy, lines 91-109): skip built-in roles (dereferencing `isBuiltIn`, panic when
nil), stream the correlated rows, and return early when `d.RowsRemaining` reports
0 after a role definition has been processed. -/
def outerLoop (env : GraphEnv) (d : QueryData) :
    List UnifiedRoleDefinition → List String → List LogEntry → List RoleDefinition →
    Option (List LogEntry × List RoleDefinition × Except GraphError Unit)
  | [], _, logs, rows => some (logs, rows, .ok ())
  | r :: rest, ids, logs, rows =>
    match r.isBuiltIn with
    | none => none
    | some builtIn =>
      match (if builtIn then some (logs, rows) else innerLoop env r ids logs rows) with
      | none => none
      | some (logs', rows') =>
        if d.rowsRemainingFn rows'.length == 0 then some (logs', rows', .ok ())
        else outerLoop env d rest ids logs' rows'

/-- `listAdCustomRoles` of the azuread copy (lines 56-112): obtain a client, fetch
role definitions then role assignments (each fetch error is logged and the
`getErrorObject` result returned), build the deduplicated assignment id list, and
run the streaming loops. The result is (accumulated logs, streamed rows, returned
error or nil); `none` models a panic. -/
def listAdCustomRoles (env : GraphEnv) (d : QueryData) :
    Option (List LogEntry × List RoleDefinition × Except GraphError Unit) :=
  match env.getClient with
  | .error e =>
    some ([⟨"azuread_custom_role.listAdCustomRoles", "connection_error", e⟩], [], .error e)
  | .ok _ =>
    match env.roleDefinitions with
    | .error e =>
      some ([⟨"listAdCustomRoles", "list_custom_role_error", getErrorObject e⟩], [],
        .error (getErrorObject e))
    | .ok defs =>
      match env.roleAssignments with
      | .error e =>
        some ([⟨"listAdCustomRoles", "list_custom_role_error", getErrorObject e⟩], [],
          .error (getErrorObject e))
      | .ok assigns =>
        match buildIds assigns [] with
        | none => none
        | some ids => outerLoop env d defs ids [] []

/-- `getAdCustomRole` of the azuread copy (lines 116-144): read the equals-qual on
`id` (empty string short-circuits to `(nil, nil)`), obtain a client, fetch the role
definition by id, fetch the member list, and return the hydrate item. `.ok none`
models the Go return `(nil, nil)`. -/
def getAdCustomRole (env : GraphEnv) (d : QueryData) :
    Option (List LogEntry × Except GraphError (Option RoleDefinition)) :=
  let customRoleId := d.equalsQualId.getD ""
  if customRoleId == "" then some ([], .ok none)
  else
    match env.getClient with
    | .error e =>
      some ([⟨"azuread_directory_role.getAdDirectoryRole", "connection_error", e⟩], .error e)
    | .ok _ =>
      match env.roleDefinitionById customRoleId with
      | .error e =>
        some ([⟨"getAdDirectoryRole", "get_directory_role_error", getErrorObject e⟩],
          .error (getErrorObject e))
      | .ok customRole =>
        match getMembersFromId env customRoleId with
        | none => none
        | some (mlogs, .error e) =>
          some (mlogs ++ [⟨"getAdCustomRole", "get_custom_role_error", getErrorObject e⟩],
            .error (getErrorObject e))
        | some (mlogs, .ok ms) => some (mlogs, .ok (some ⟨customRole, ms⟩))

/-- `getCustomRoleMembers` transform (azuread copy, lines 146-153): returns the
members field of the hydrate item. -/
def getCustomRoleMembers (data : RoleDefinition) : Option (List String) :=
  some data.members

/-- A JSON column cell value produced by `getRolePermissions`: either a string
slice or a nilable string. -/
inductive ColValue where
  | strs (l : List String)
  | str (s : Option String)
  deriving Repr, DecidableEq

/-- The mapping built for one role permission by `getRolePermissions` (azuread
copy, lines 162-177), with nil action slices coalesced to empty string slices.
The Go map is modelled as the association list of its three inserted keys. -/
def permissionMapping (per : UnifiedRolePermission) : List (String × ColValue) :=
  [("AllowedResourceActions",
      match per.allowedResourceActions with
      | none => ColValue.strs []
      | some l => ColValue.strs l),
   ("ExcludedResourceActions",
      match per.excludedResourceActions with
      | none => ColValue.strs []
      | some l => ColValue.strs l),
   ("condition", ColValue.str per.condition)]

/-- `getRolePermissions` transform (azuread copy, lines 158-180): one mapping per
role permission, in order, starting from the empty (never nil) slice. -/
def getRolePermissions (data : RoleDefinition) : List (List (String × ColValue)) :=
  data.role.rolePermissions.map permissionMapping

/-- `getRoleId` transform (azuread copy, lines 182-185): dereferences the role's
`id` pointer with no nil check; `none` models the panic on a nil pointer. -/
def getRoleId (data : RoleDefinition) : Option String :=
  data.role.id

/-- `getRoleDescripsion` transform (azuread copy, lines 187-193): nil-checks the
description and coalesces to `"No Description"`. -/
def getRoleDescripsion (data : RoleDefinition) : Option String :=
  match data.role.description with
  | none => some "No Description"
  | some s => some s

/-- `getRoleDisplayName` transform (azuread copy, lines 195-198): dereferences the
role's `displayName` pointer with no nil check; `none` models the panic. -/
def getRoleDisplayName (data : RoleDefinition) : Option String :=
  data.role.displayName

/-- `getRoleTemplateId` transform (azuread copy, lines 200-203): dereferences the
role's `templateId` pointer with no nil check; `none` models the panic. -/
def getRoleTemplateId (data : RoleDefinition) : Option String :=
  data.role.templateId

/-- `getCustomRoleTitle` transform (azuread copy, lines 205-217): display name when
present, else the (still nilable) id; never panics, hence always `some`. -/
def getCustomRoleTitle (data : RoleDefinition) : Option (Option String) :=
  some (match data.role.displayName with
        | some t => some t
        | none => data.role.id)

/-- Result of one outer-loop step of the part_000 copy of `listAdCustomRoles`: the
step may panic, return early from the whole function with an error, or continue. -/
inductive StepRes where
  | panicked
  | halted (logs : List LogEntry) (rows : List RoleDefinition) (e : GraphError)
  | continued (logs : List LogEntry) (rows : List RoleDefinition)

namespace Part000

/-- `getMembersFromId` of the part_000 copy (lines 224-253): identical to the
azuread copy except that a role-assignments fetch error is logged and the
`getErrorObject` result returned instead of being discarded. -/
def getMembersFromId (env : GraphEnv) (id : String) :
    Option (List LogEntry × Except GraphError (List String)) :=
  match env.getClient with
  | .error e => some ([⟨"azuread_custom_role", "connection_error", e⟩], .error e)
  | .ok _ =>
    match env.roleAssignments with
    | .error e =>
      some ([⟨"azuread_custom_role", "list_custom_role_error", getErrorObject e⟩],
        .error (getErrorObject e))
    | .ok assigns =>
      match membersLoop assigns id [] with
      | none => none
      | some ms => some ([], .ok ms)

/-- Inner loop over `ids` of the part_000 copy of `listAdCustomRoles` (lines
90-100): identical to the azuread copy except that a `getMembersFromId` error is
logged and aborts the whole list call with the `getErrorObject` result. -/
def innerLoop (env : GraphEnv) (r : UnifiedRoleDefinition) :
    List String → List LogEntry → List RoleDefinition → StepRes
  | [], logs, rows => StepRes.continued logs rows
  | id :: rest, logs, rows =>
    match r.templateId with
    | none => StepRes.panicked
    | some tid =>
      if id == tid then
        match getMembersFromId env id with
        | none => StepRes.panicked
        | some (mlogs, .error e) =>
          StepRes.halted
            (logs ++ mlogs ++ [⟨"listAdCustomRoles", "list_custom_role_error", getErrorObject e⟩])
            rows (getErrorObject e)
        | some (mlogs, .ok ms) => innerLoop env r rest (logs ++ mlogs) (rows ++ [⟨r, ms⟩])
      else innerLoop env r rest logs rows

/-- Outer loop of the part_000 copy of `listAdCustomRoles` (lines 87-107). -/
def outerLoop (env : GraphEnv) (d : QueryData) :
    List UnifiedRoleDefinition → List String → List LogEntry → List RoleDefinition →
    Option (List LogEntry × List RoleDefinition × Except GraphError Unit)
  | [], _, logs, rows => some (logs, rows, .ok ())
  | r :: rest, ids, logs, rows =>
    match r.isBuiltIn with
    | none => none
    | some builtIn =>
      match (if builtIn then StepRes.continued logs rows else innerLoop env r ids logs rows) with
      | StepRes.panicked => none
      | StepRes.halted logs' rows' e => some (logs', rows', .error e)
      | StepRes.continued logs' rows' =>
        if d.rowsRemainingFn rows'.length == 0 then some (logs', rows', .ok ())
        else outerLoop env d rest ids logs' rows'

/-- `listAdCustomRoles` of the part_000 copy (lines 52-110). -/
def listAdCustomRoles (env : GraphEnv) (d : QueryData) :
    Option (List LogEntry × List RoleDefinition × Except GraphError Unit) :=
  match env.getClient with
  | .error e =>
    some ([⟨"azuread_custom_role.listAdCustomRoles", "connection_error", e⟩], [], .error e)
  | .ok _ =>
    match env.roleDefinitions with
    | .error e =>
      some ([⟨"listAdCustomRoles", "list_custom_role_error", getErrorObject e⟩], [],
        .error (getErrorObject e))
    | .ok defs =>
      match env.roleAssignments with
      | .error e =>
        some ([⟨"listAdCustomRoles", "list_custom_role_error", getErrorObject e⟩], [],
          .error (getErrorObject e))
      | .ok assigns =>
        match buildIds assigns [] with
        | none => none
        | some ids => outerLoop env d defs ids [] []

/-- `getAdCustomRole` of the part_000 copy (lines 114-141): identical to the
azuread copy apart from the log location and key strings. -/
def getAdCustomRole (env : GraphEnv) (d : QueryData) :
    Option (List LogEntry × Except GraphError (Option RoleDefinition)) :=
  let customRoleId := d.equalsQualId.getD ""
  if customRoleId == "" then some ([], .ok none)
  else
    match env.getClient with
    | .error e =>
      some ([⟨"azuread_custom_role.getAdCustomRole", "connection_error", e⟩], .error e)
    | .ok _ =>
      match env.roleDefinitionById customRoleId with
      | .error e =>
        some ([⟨"getCustomRole", "get_custom_error", getErrorObject e⟩],
          .error (getErrorObject e))
      | .ok customRole =>
        match getMembersFromId env customRoleId with
        | none => none
        | some (mlogs, .error e) =>
          some (mlogs ++ [⟨"getAdCustomRole", "get_custom_role_error", getErrorObject e⟩],
            .error (getErrorObject e))
        | some (mlogs, .ok ms) => some (mlogs, .ok (some ⟨customRole, ms⟩))

/-- `getCustomRoleMembers` transform of the part_000 copy (lines 143-150). -/
def getCustomRoleMembers (data : RoleDefinition) : Option (List String) :=
  some data.members

/-- `getRolePermissions` transform of the part_000 copy (lines 155-177); the loop
body is character-for-character the azuread copy's. -/
def getRolePermissions (data : RoleDefinition) : List (List (String × ColValue)) :=
  data.role.rolePermissions.map permissionMapping

/-- `getRoleId` transform of the part_000 copy (lines 180-183). -/
def getRoleId (data : RoleDefinition) : Option String :=
  data.role.id

/-- `getRoleDescripsion` transform of the part_000 copy (lines 186-192). -/
def getRoleDescripsion (data : RoleDefinition) : Option String :=
  match data.role.description with
  | none => some "No Description"
  | some s => some s

/-- `getRoleDisplayName` transform of the part_000 copy (lines 195-198). -/
def getRoleDisplayName (data : RoleDefinition) : Option String :=
  data.role.displayName

/-- `getRoleTemplateId` transform of the part_000 copy (lines 201-204). -/
def getRoleTemplateId (data : RoleDefinition) : Option String :=
  data.role.templateId

/-- `getCustomRoleTitle` transform of the part_000 copy (lines 207-219). -/
def getCustomRoleTitle (data : RoleDefinition) : Option (Option String) :=
  some (match data.role.displayName with
        | some t => some t
        | none => data.role.id)

end Part000

/-- First-occurrence deduplication with an explicit set of already-seen values. -/
def firstDedupFrom : List String → List String → List String
  | _, [] => []
  | seen, x :: xs =>
    if seen.contains x then firstDedupFrom seen xs
    else x :: firstDedupFrom (seen ++ [x]) xs

/-- First-occurrence deduplication: keep each value at its first occurrence. -/
def firstDedup (l : List String) : List String := firstDedupFrom [] l

/-- The dereferenced `roleDefinitionId` values of an assignments response, in
response order. -/
def assignmentRoleIds (assigns : List UnifiedRoleAssignment) : List String :=
  assigns.filterMap (fun a => a.roleDefinitionId)

/-- The dereferenced `principalId` values of the assignments whose
`roleDefinitionId` equals the given id, in response order. -/
def matchingPrincipals (assigns : List UnifiedRoleAssignment) (id : String) : List String :=
  (assigns.filter (fun a => a.roleDefinitionId == some id)).filterMap (fun a => a.principalId)

/-- Specification of the member list for a role definition id: the distinct
matching principal ids in order of first occurrence. -/
def memberSpec (assigns : List UnifiedRoleAssignment) (id : String) : List String :=
  firstDedup (matchingPrincipals assigns id)

/-- Specification of the row streamed for one fetched role definition: a row
exactly when the definition is not built-in and its template id occurs among the
assignments' role definition ids. -/
def rowSpec (assigns : List UnifiedRoleAssignment) (r : UnifiedRoleDefinition) :
    Option RoleDefinition :=
  match r.isBuiltIn, r.templateId with
  | some false, some tid =>
    if (assignmentRoleIds assigns).contains tid
    then some ⟨r, memberSpec assigns tid⟩
    else none
  | _, _ => none

/-- Specification of the full row stream of `listAdCustomRoles` when no limit
interferes. -/
def rowsSpec (defs : List UnifiedRoleDefinition) (assigns : List UnifiedRoleAssignment) :
    List RoleDefinition :=
  defs.filterMap (rowSpec assigns)

/-- The member list `getMembersFromId` produces in the non-panicking case, with
defaults for the unreachable cases, used to describe the streamed groups. -/
def memberValue (env : GraphEnv) (id : String) : List String :=
  match getMembersFromId env id with
  | some (_, Except.ok ms) => ms
  | some (_, Except.error _) => []
  | none => []

/-- The group of rows one fetched role definition contributes to the stream, given
the correlated id list. -/
def groupRows (env : GraphEnv) (ids : List String) (r : UnifiedRoleDefinition) :
    List RoleDefinition :=
  match r.isBuiltIn, r.templateId with
  | some false, some tid => if ids.contains tid then [⟨r, memberValue env tid⟩] else []
  | _, _ => []

/-- The per-definition row groups of one `listAdCustomRoles` invocation. -/
def listGroups (env : GraphEnv) (defs : List UnifiedRoleDefinition)
    (assigns : List UnifiedRoleAssignment) : List (List RoleDefinition) :=
  defs.map (groupRows env (firstDedup (assignmentRoleIds assigns)))

/-- Reference recursion for the streaming phase: append whole groups and stop at
the first group boundary where `RowsRemaining` reports 0. -/
def joinUntil (d : QueryData) : List (List RoleDefinition) → List RoleDefinition → List RoleDefinition
  | [], rows => rows
  | g :: gs, rows =>
    let rows' := rows ++ g
    if d.rowsRemainingFn rows'.length == 0 then rows' else joinUntil d gs rows'

lemma contains_iff_mem (l : List String) (x : String) : l.contains x = true ↔ x ∈ l := by
  simp

lemma foldl_insertNew (l : List String) : ∀ acc : List String,
    l.foldl insertNew acc = acc ++ firstDedupFrom acc l := by
  induction l with
  | nil => intro acc; simp [firstDedupFrom]
  | cons x xs ih =>
    intro acc
    by_cases h : x ∈ acc
    · simp [List.foldl_cons, insertNew, firstDedupFrom, h, ih acc]
    · simp [List.foldl_cons, insertNew, firstDedupFrom, h, ih (acc ++ [x])]

lemma mem_firstDedupFrom (x : String) (l : List String) : ∀ seen : List String,
    x ∈ firstDedupFrom seen l ↔ x ∈ l ∧ x ∉ seen := by
  induction l with
  | nil => intro seen; simp [firstDedupFrom]
  | cons a xs ih =>
    intro seen
    by_cases h : a ∈ seen
    · simp only [firstDedupFrom, if_pos ((contains_iff_mem seen a).mpr h), ih seen]
      constructor
      · rintro ⟨hx, hns⟩
        exact ⟨List.mem_cons_of_mem a hx, hns⟩
      · rintro ⟨hx, hns⟩
        rcases List.mem_cons.mp hx with rfl | hx
        · exact absurd h hns
        · exact ⟨hx, hns⟩
    · have hc : ¬ (seen.contains a = true) := fun hcc => h ((contains_iff_mem seen a).mp hcc)
      simp only [firstDedupFrom, if_neg hc, List.mem_cons, ih (seen ++ [a])]
      constructor
      · rintro (rfl | ⟨hx, hns⟩)
        · exact ⟨Or.inl rfl, h⟩
        · refine ⟨Or.inr hx, fun hmem => hns ?_⟩
          exact List.mem_append_left [a] hmem
      · rintro ⟨hx, hns⟩
        rcases hx with rfl | hx
        · exact Or.inl rfl
        · by_cases hxa : x = a
          · exact Or.inl hxa
          · refine Or.inr ⟨hx, fun hmem => ?_⟩
            rcases List.mem_append.mp hmem with hs | hsing
            · exact hns hs
            · exact hxa (List.mem_singleton.mp hsing)

lemma nodup_firstDedupFrom (l : List String) : ∀ seen : List String,
    (firstDedupFrom seen l).Nodup := by
  induction l with
  | nil => intro seen; simp [firstDedupFrom]
  | cons a xs ih =>
    intro seen
    by_cases h : a ∈ seen
    · simpa only [firstDedupFrom, if_pos ((contains_iff_mem seen a).mpr h)] using ih seen
    · have hc : ¬ (seen.contains a = true) := fun hcc => h ((contains_iff_mem seen a).mp hcc)
      simp only [firstDedupFrom, if_neg hc, List.nodup_cons]
      refine ⟨fun hmem => ?_, ih (seen ++ [a])⟩
      have := (mem_firstDedupFrom a xs (seen ++ [a])).mp hmem
      exact this.2 (List.mem_append_right seen (List.mem_singleton.mpr rfl))

lemma pairwise_firstDedupFrom (l : List String) : ∀ seen : List String,
    (firstDedupFrom seen l).Pairwise (fun x y => l.indexOf x < l.indexOf y) := by
  induction l with
  | nil => intro seen; simp [firstDedupFrom]
  | cons a xs ih =>
    intro seen
    by_cases h : a ∈ seen
    · simp only [firstDedupFrom, if_pos ((contains_iff_mem seen a).mpr h)]
      refine (ih seen).imp_of_mem ?_
      intro x y hx hy hlt
      have hxa : a ≠ x := fun hax =>
        ((mem_firstDedupFrom x xs seen).mp hx).2 (hax ▸ h)
      have hya : a ≠ y := fun hay =>
        ((mem_firstDedupFrom y xs seen).mp hy).2 (hay ▸ h)
      rw [List.indexOf_cons_ne xs hxa, List.indexOf_cons_ne xs hya]
      exact Nat.succ_lt_succ hlt
    · have hc : ¬ (seen.contains a = true) := fun hcc => h ((contains_iff_mem seen a).mp hcc)
      simp only [firstDedupFrom, if_neg hc, List.pairwise_cons]
      constructor
      · intro y hy
        have hmem := (mem_firstDedupFrom y xs (seen ++ [a])).mp hy
        have hya : a ≠ y := fun hay =>
          hmem.2 (List.mem_append_right seen (List.mem_singleton.mpr hay.symm))
        rw [List.indexOf_cons_self, List.indexOf_cons_ne xs hya]
        exact Nat.succ_pos _
      · refine (ih (seen ++ [a])).imp_of_mem ?_
        intro x y hx hy hlt
        have hxa : a ≠ x := fun hax =>
          ((mem_firstDedupFrom x xs (seen ++ [a])).mp hx).2
            (List.mem_append_right seen (List.mem_singleton.mpr hax.symm))
        have hya : a ≠ y := fun hay =>
          ((mem_firstDedupFrom y xs (seen ++ [a])).mp hy).2
            (List.mem_append_right seen (List.mem_singleton.mpr hay.symm))
        rw [List.indexOf_cons_ne xs hxa, List.indexOf_cons_ne xs hya]
        exact Nat.succ_lt_succ hlt

lemma mem_firstDedup (x : String) (l : List String) : x ∈ firstDedup l ↔ x ∈ l := by
  simp [firstDedup, mem_firstDedupFrom]

lemma nodup_firstDedup (l : List String) : (firstDedup l).Nodup :=
  nodup_firstDedupFrom l []

lemma pairwise_firstDedup (l : List String) :
    (firstDedup l).Pairwise (fun x y => l.indexOf x < l.indexOf y) :=
  pairwise_firstDedupFrom l []

lemma buildIds_eq (l : List UnifiedRoleAssignment)
    (h : ∀ a ∈ l, a.roleDefinitionId.isSome) : ∀ acc : List String,
    buildIds l acc = some ((assignmentRoleIds l).foldl insertNew acc) := by
  induction l with
  | nil => intro acc; simp [buildIds, assignmentRoleIds]
  | cons a rest ih =>
    intro acc
    obtain ⟨rid, hrid⟩ := Option.isSome_iff_exists.mp (h a (List.mem_cons_self a rest))
    have ih' := ih (fun a ha => h a (List.mem_cons_of_mem _ ha))
    simp [buildIds, assignmentRoleIds, hrid, ih']

lemma membersLoop_eq (l : List UnifiedRoleAssignment) (id : String)
    (h : ∀ a ∈ l, a.roleDefinitionId.isSome ∧ a.principalId.isSome) : ∀ acc : List String,
    membersLoop l id acc = some ((matchingPrincipals l id).foldl insertNew acc) := by
  induction l with
  | nil => intro acc; simp [membersLoop, matchingPrincipals]
  | cons a rest ih =>
    intro acc
    obtain ⟨hr, hp⟩ := h a (List.mem_cons_self a rest)
    obtain ⟨rid, hrid⟩ := Option.isSome_iff_exists.mp hr
    obtain ⟨p, hpid⟩ := Option.isSome_iff_exists.mp hp
    have ih' := ih (fun a ha => h a (List.mem_cons_of_mem _ ha))
    by_cases hid : rid = id
    · simp [membersLoop, matchingPrincipals, hrid, hpid, hid, ih']
    · simp [membersLoop, matchingPrincipals, hrid, hpid, hid, ih']

lemma getMembersFromId_ok (env : GraphEnv) (assigns : List UnifiedRoleAssignment)
    (hc : env.getClient = Except.ok ())
    (ha : env.roleAssignments = Except.ok assigns)
    (hA : ∀ a ∈ assigns, a.roleDefinitionId.isSome ∧ a.principalId.isSome) (id : String) :
    getMembersFromId env id = some ([], Except.ok (memberSpec assigns id)) := by
  simp [getMembersFromId, hc, ha, membersLoop_eq assigns id hA, foldl_insertNew,
    memberSpec, firstDedup]

lemma memberValue_eq (env : GraphEnv) (assigns : List UnifiedRoleAssignment)
    (hc : env.getClient = Except.ok ())
    (ha : env.roleAssignments = Except.ok assigns)
    (hA : ∀ a ∈ assigns, a.roleDefinitionId.isSome ∧ a.principalId.isSome) (id : String) :
    memberValue env id = memberSpec assigns id := by
  simp [memberValue, getMembersFromId_ok env assigns hc ha hA id]

lemma innerLoop_no_match (env : GraphEnv) (r : UnifiedRoleDefinition) (tid : String)
    (htid : r.templateId = some tid) : ∀ (ids : List String) (logs : List LogEntry)
    (rows : List RoleDefinition), tid ∉ ids →
    innerLoop env r ids logs rows = some (logs, rows) := by
  intro ids
  induction ids with
  | nil => intro logs rows _; simp [innerLoop]
  | cons id rest ih =>
    intro logs rows hnm
    have hne : ¬ (id = tid) := fun hid => hnm (hid ▸ List.mem_cons_self id rest)
    simp [innerLoop, htid, hne, ih logs rows (fun hm => hnm (List.mem_cons_of_mem _ hm))]

lemma innerLoop_eq (env : GraphEnv) (r : UnifiedRoleDefinition) (tid : String)
    (mf : String → List String) (htid : r.templateId = some tid) :
    ∀ (ids : List String), ids.Nodup →
    (∀ id ∈ ids, getMembersFromId env id = some ([], Except.ok (mf id))) →
    ∀ (logs : List LogEntry) (rows : List RoleDefinition),
    innerLoop env r ids logs rows =
      some (logs, rows ++ (if tid ∈ ids then [⟨r, mf tid⟩] else [])) := by
  intro ids
  induction ids with
  | nil => intro _ _ logs rows; simp [innerLoop]
  | cons id rest ih =>
    intro hnd hget logs rows
    by_cases hid : id = tid
    · subst hid
      have hmem : getMembersFromId env id = some ([], Except.ok (mf id)) :=
        hget id (List.mem_cons_self id rest)
      have hnin : id ∉ rest := (List.nodup_cons.mp hnd).1
      simp [innerLoop, htid, hmem, innerLoop_no_match env r id htid rest _ _ hnin]
    · have hrec := ih (List.nodup_cons.mp hnd).2
        (fun i hi => hget i (List.mem_cons_of_mem _ hi)) logs rows
      have htm : (tid ∈ id :: rest) ↔ (tid ∈ rest) := by
        rw [List.mem_cons]
        exact ⟨fun h => h.resolve_left (fun h2 => hid h2.symm), Or.inr⟩
      simp [innerLoop, htid, hid, hrec, htm]

lemma groupRows_eq_if (env : GraphEnv) (ids : List String) (r : UnifiedRoleDefinition)
    (tid : String) (htid : r.templateId = some tid) (hbi : r.isBuiltIn = some false) :
    groupRows env ids r = (if tid ∈ ids then [⟨r, memberValue env tid⟩] else []) := by
  by_cases hm : tid ∈ ids
  · simp [groupRows, htid, hbi, hm]
  · simp [groupRows, htid, hbi, hm]

lemma outerLoop_joinUntil (env : GraphEnv) (d : QueryData) (ids : List String)
    (hnd : ids.Nodup)
    (hget : ∀ id, getMembersFromId env id = some ([], Except.ok (memberValue env id))) :
    ∀ (defs : List UnifiedRoleDefinition),
    (∀ r ∈ defs, r.isBuiltIn.isSome ∧ (r.isBuiltIn = some false → r.templateId.isSome)) →
    ∀ (logs : List LogEntry) (rows : List RoleDefinition),
    outerLoop env d defs ids logs rows =
      some (logs, joinUntil d (defs.map (groupRows env ids)) rows, Except.ok ()) := by
  intro defs
  induction defs with
  | nil => intro _ logs rows; simp [outerLoop, joinUntil]
  | cons r rest ih =>
    intro hD logs rows
    obtain ⟨hbi, htemp⟩ := hD r (List.mem_cons_self r rest)
    obtain ⟨b, hb⟩ := Option.isSome_iff_exists.mp hbi
    have ih' := ih (fun r hr => hD r (List.mem_cons_of_mem _ hr)) logs
    cases b with
    | true =>
      have hg : groupRows env ids r = [] := by simp [groupRows, hb]
      by_cases hz : d.rowsRemainingFn rows.length = 0
      · simp [outerLoop, joinUntil, hb, hg, hz]
      · simp [outerLoop, joinUntil, hb, hg, hz, ih' rows]
    | false =>
      obtain ⟨tid, htid⟩ := Option.isSome_iff_exists.mp (htemp hb)
      have hinner := innerLoop_eq env r tid (memberValue env) htid ids hnd
        (fun id _ => hget id) logs rows
      have hg := groupRows_eq_if env ids r tid htid hb
      set rows' := rows ++ (if tid ∈ ids then [⟨r, memberValue env tid⟩] else []) with hrows'
      by_cases hz : d.rowsRemainingFn rows'.length = 0
      · simp [outerLoop, joinUntil, hb, hinner, hg, ← hrows', hz]
      · simp [outerLoop, joinUntil, hb, hinner, hg, ← hrows', hz, ih' rows']

lemma joinUntil_no_limit (d : QueryData) (hnl : ∀ n, d.rowsRemainingFn n ≠ 0) :
    ∀ (gs : List (List RoleDefinition)) (rows : List RoleDefinition),
    joinUntil d gs rows = rows ++ gs.flatten := by
  intro gs
  induction gs with
  | nil => intro rows; simp [joinUntil]
  | cons g rest ih =>
    intro rows
    have hcond : (d.rowsRemainingFn (rows ++ g).length == 0) = false := by
      rw [beq_eq_false_iff_ne]
      exact hnl _
    simp only [joinUntil, hcond, Bool.false_eq_true, if_false]
    rw [ih (rows ++ g)]
    simp

lemma joinUntil_take (d : QueryData) : ∀ (gs : List (List RoleDefinition))
    (rows : List RoleDefinition),
    ∃ k ≤ gs.length,
      joinUntil d gs rows = rows ++ (gs.take k).flatten ∧
      (k < gs.length → d.rowsRemainingFn (rows ++ (gs.take k).flatten).length = 0) ∧
      (∀ j, j + 1 < k → d.rowsRemainingFn (rows ++ (gs.take (j + 1)).flatten).length ≠ 0) := by
  intro gs
  induction gs with
  | nil =>
    intro rows
    exact ⟨0, Nat.le_refl 0, by simp [joinUntil], fun h => absurd h (Nat.lt_irrefl 0),
      fun j hj => absurd hj (by omega)⟩
  | cons g rest ih =>
    intro rows
    by_cases hz : d.rowsRemainingFn (rows ++ g).length = 0
    · have hcond : (d.rowsRemainingFn (rows ++ g).length == 0) = true := beq_iff_eq.mpr hz
      refine ⟨1, by exact Nat.succ_le_succ (Nat.zero_le rest.length), ?_, ?_, ?_⟩
      · simp only [joinUntil, hcond, if_true]
        simp
      · intro _
        simpa using hz
      · intro j hj
        omega
    · have hcond : (d.rowsRemainingFn (rows ++ g).length == 0) = false := by
        rw [beq_eq_false_iff_ne]
        exact hz
      obtain ⟨k, hkle, heq, hstop, hmin⟩ := ih (rows ++ g)
      refine ⟨k + 1, by exact Nat.succ_le_succ hkle, ?_, ?_, ?_⟩
      · simp only [joinUntil, hcond, Bool.false_eq_true, if_false]
        rw [heq]
        simp
      · intro hlt
        have h2 := hstop (by simp at hlt; omega)
        simpa using h2
      · intro j hj
        cases j with
        | zero => simpa using hz
        | succ j2 =>
          have h2 := hmin j2 (by omega)
          simpa using h2

lemma getMembersFromId_memberValue (env : GraphEnv) (assigns : List UnifiedRoleAssignment)
    (hc : env.getClient = Except.ok ())
    (ha : env.roleAssignments = Except.ok assigns)
    (hA : ∀ a ∈ assigns, a.roleDefinitionId.isSome ∧ a.principalId.isSome) :
    ∀ id, getMembersFromId env id = some ([], Except.ok (memberValue env id)) := by
  intro id
  rw [memberValue_eq env assigns hc ha hA id]
  exact getMembersFromId_ok env assigns hc ha hA id

lemma buildIds_firstDedup (assigns : List UnifiedRoleAssignment)
    (h : ∀ a ∈ assigns, a.roleDefinitionId.isSome) :
    buildIds assigns [] = some (firstDedup (assignmentRoleIds assigns)) := by
  rw [buildIds_eq assigns h [], foldl_insertNew]
  simp [firstDedup]

lemma listAdCustomRoles_run (env : GraphEnv) (d : QueryData)
    (defs : List UnifiedRoleDefinition) (assigns : List UnifiedRoleAssignment)
    (hc : env.getClient = Except.ok ())
    (hdefs : env.roleDefinitions = Except.ok defs)
    (hassigns : env.roleAssignments = Except.ok assigns)
    (hA : ∀ a ∈ assigns, a.roleDefinitionId.isSome ∧ a.principalId.isSome)
    (hD : ∀ r ∈ defs, r.isBuiltIn.isSome ∧ (r.isBuiltIn = some false → r.templateId.isSome)) :
    listAdCustomRoles env d =
      some ([], joinUntil d (listGroups env defs assigns) [], Except.ok ()) := by
  have hids := buildIds_firstDedup assigns (fun a ha => (hA a ha).1)
  simp only [listAdCustomRoles, hc, hdefs, hassigns, hids]
  exact outerLoop_joinUntil env d _ (nodup_firstDedup (assignmentRoleIds assigns))
    (getMembersFromId_memberValue env assigns hc hassigns hA) defs hD [] []

lemma groupRows_toList (env : GraphEnv) (assigns : List UnifiedRoleAssignment)
    (hc : env.getClient = Except.ok ())
    (ha : env.roleAssignments = Except.ok assigns)
    (hA : ∀ a ∈ assigns, a.roleDefinitionId.isSome ∧ a.principalId.isSome)
    (r : UnifiedRoleDefinition) :
    groupRows env (firstDedup (assignmentRoleIds assigns)) r = (rowSpec assigns r).toList := by
  match hbi : r.isBuiltIn, htid : r.templateId with
  | some false, some tid =>
    by_cases hm : tid ∈ assignmentRoleIds assigns
    · have hm2 : tid ∈ firstDedup (assignmentRoleIds assigns) := (mem_firstDedup tid _).mpr hm
      simp [groupRows, rowSpec, hbi, htid, hm, hm2, memberValue_eq env assigns hc ha hA tid]
    · have hm2 : tid ∉ firstDedup (assignmentRoleIds assigns) :=
        fun h2 => hm ((mem_firstDedup tid _).mp h2)
      simp [groupRows, rowSpec, hbi, htid, hm, hm2]
  | some false, none => simp [groupRows, rowSpec, hbi, htid]
  | some true, _ => simp [groupRows, rowSpec, hbi]
  | none, _ => simp [groupRows, rowSpec, hbi]

lemma flatten_map_toList {α β : Type} (f : α → Option β) (l : List α) :
    (l.map (fun a => (f a).toList)).flatten = l.filterMap f := by
  induction l with
  | nil => simp
  | cons a rest ih =>
    cases hfa : f a with
    | none => simp [hfa, ih]
    | some b => simp [hfa, ih]

lemma listGroups_flatten (env : GraphEnv) (defs : List UnifiedRoleDefinition)
    (assigns : List UnifiedRoleAssignment)
    (hc : env.getClient = Except.ok ())
    (ha : env.roleAssignments = Except.ok assigns)
    (hA : ∀ a ∈ assigns, a.roleDefinitionId.isSome ∧ a.principalId.isSome) :
    (listGroups env defs assigns).flatten = rowsSpec defs assigns := by
  unfold listGroups rowsSpec
  have hmap : defs.map (groupRows env (firstDedup (assignmentRoleIds assigns))) =
      defs.map (fun r => (rowSpec assigns r).toList) :=
    List.map_congr_left (fun r _ => groupRows_toList env assigns hc ha hA r)
  rw [hmap, flatten_map_toList]

lemma rowSpec_eq_some (assigns : List UnifiedRoleAssignment) (r : UnifiedRoleDefinition)
    (row : RoleDefinition) :
    rowSpec assigns r = some row ↔
      r.isBuiltIn = some false ∧ ∃ tid, r.templateId = some tid ∧
        tid ∈ assignmentRoleIds assigns ∧ row = ⟨r, memberSpec assigns tid⟩ := by
  match hbi : r.isBuiltIn, htid : r.templateId with
  | some false, some tid =>
    by_cases hm : tid ∈ assignmentRoleIds assigns
    · simp [rowSpec, hbi, htid, hm, eq_comm]
    · simp [rowSpec, hbi, htid, hm]
  | some false, none => simp [rowSpec, hbi, htid]
  | some true, _ => simp [rowSpec, hbi]
  | none, _ => simp [rowSpec, hbi]

lemma mem_assignmentRoleIds (assigns : List UnifiedRoleAssignment) (tid : String) :
    tid ∈ assignmentRoleIds assigns ↔ ∃ a ∈ assigns, a.roleDefinitionId = some tid := by
  simp [assignmentRoleIds, List.mem_filterMap]

/-- C1: for every pair of responses returned by the two Graph calls (role
definitions `defs`, role assignments `assigns`), with every pointer the code
dereferences non-nil and no row limit in force, `listAdCustomRoles` streams
exactly the rows of `rowsSpec defs assigns` — one row per fetched role definition
whose `isBuiltIn` flag is false and whose `templateId` occurs among the
assignments' `roleDefinitionId` values (at most one row per fetched definition,
the correlated id list being duplicate-free), and no row for any other
definition; the second conjunct restates the if-and-only-if explicitly. -/
theorem listAdCustomRoles_streams_iff (env : GraphEnv) (d : QueryData)
    (defs : List UnifiedRoleDefinition) (assigns : List UnifiedRoleAssignment)
    (hc : env.getClient = Except.ok ())
    (hdefs : env.roleDefinitions = Except.ok defs)
    (hassigns : env.roleAssignments = Except.ok assigns)
    (hA : ∀ a ∈ assigns, a.roleDefinitionId.isSome ∧ a.principalId.isSome)
    (hD : ∀ r ∈ defs, r.isBuiltIn.isSome ∧ (r.isBuiltIn = some false → r.templateId.isSome))
    (hnl : ∀ n, d.rowsRemainingFn n ≠ 0) :
    listAdCustomRoles env d = some ([], rowsSpec defs assigns, Except.ok ()) ∧
    (∀ r ∈ defs, (∃ row ∈ rowsSpec defs assigns, row.role = r) ↔
      (r.isBuiltIn = some false ∧ ∃ tid, r.templateId = some tid ∧
        ∃ a ∈ assigns, a.roleDefinitionId = some tid)) := by
  constructor
  · rw [listAdCustomRoles_run env d defs assigns hc hdefs hassigns hA hD,
      joinUntil_no_limit d hnl, List.nil_append,
      listGroups_flatten env defs assigns hc hassigns hA]
  · intro r hr
    constructor
    · rintro ⟨row, hrow, hrole⟩
      obtain ⟨r2, hr2, hspec⟩ := List.mem_filterMap.mp hrow
      obtain ⟨hbi, tid, htid, hmem, hrowval⟩ := (rowSpec_eq_some assigns r2 row).mp hspec
      have hrr : r2 = r := by rw [hrowval] at hrole; exact hrole
      subst hrr
      exact ⟨hbi, tid, htid, (mem_assignmentRoleIds assigns tid).mp hmem⟩
    · rintro ⟨hbi, tid, htid, ha, hain, harid⟩
      refine ⟨⟨r, memberSpec assigns tid⟩, ?_, rfl⟩
      refine List.mem_filterMap.mpr ⟨r, hr, ?_⟩
      exact (rowSpec_eq_some assigns r _).mpr
        ⟨hbi, tid, htid, (mem_assignmentRoleIds assigns tid).mpr ⟨ha, hain, harid⟩, rfl⟩

/-- C3: with every assignment's `roleDefinitionId` pointer non-nil (otherwise the
loop panics), the `ids` list built by the nested-loop deduplication contains
exactly the distinct `roleDefinitionId` values occurring in the assignments
(second conjunct), each exactly once (third conjunct), in order of first
occurrence (fourth conjunct: positions in `ids` are ordered by first index in the
dereferenced id sequence). -/
theorem buildIds_first_occurrence (assigns : List UnifiedRoleAssignment)
    (hA : ∀ a ∈ assigns, a.roleDefinitionId.isSome) :
    buildIds assigns [] = some (firstDedup (assignmentRoleIds assigns)) ∧
    (∀ x, x ∈ firstDedup (assignmentRoleIds assigns) ↔ x ∈ assignmentRoleIds assigns) ∧
    (firstDedup (assignmentRoleIds assigns)).Nodup ∧
    (firstDedup (assignmentRoleIds assigns)).Pairwise
      (fun x y => (assignmentRoleIds assigns).indexOf x < (assignmentRoleIds assigns).indexOf y) :=
  ⟨buildIds_firstDedup assigns hA, fun x => mem_firstDedup x _,
    nodup_firstDedup _, pairwise_firstDedup _⟩

/-- C4: whenever the client and the role-assignments fetch succeed and every
assignment's two pointers are non-nil (otherwise the loop panics),
`getMembersFromId` returns exactly the distinct `principalId` values of the
assignments whose `roleDefinitionId` equals the given id (second conjunct), each
exactly once (third conjunct), in order of first occurrence among the matching
principal ids (fourth conjunct). -/
theorem getMembersFromId_first_occurrence (env : GraphEnv) (id : String)
    (assigns : List UnifiedRoleAssignment)
    (hc : env.getClient = Except.ok ())
    (ha : env.roleAssignments = Except.ok assigns)
    (hA : ∀ a ∈ assigns, a.roleDefinitionId.isSome ∧ a.principalId.isSome) :
    getMembersFromId env id = some ([], Except.ok (memberSpec assigns id)) ∧
    (∀ x, x ∈ memberSpec assigns id ↔
      ∃ a ∈ assigns, a.roleDefinitionId = some id ∧ a.principalId = some x) ∧
    (memberSpec assigns id).Nodup ∧
    (memberSpec assigns id).Pairwise
      (fun x y => (matchingPrincipals assigns id).indexOf x <
        (matchingPrincipals assigns id).indexOf y) := by
  refine ⟨getMembersFromId_ok env assigns hc ha hA id, ?_, nodup_firstDedup _,
    pairwise_firstDedup _⟩
  intro x
  rw [memberSpec, mem_firstDedup]
  simp only [matchingPrincipals, List.mem_filterMap, List.mem_filter, beq_iff_eq]
  constructor
  · rintro ⟨a, ⟨hain, harid⟩, hapid⟩
    exact ⟨a, hain, harid, hapid⟩
  · rintro ⟨a, hain, harid, hapid⟩
    exact ⟨a, ⟨hain, harid⟩, hapid⟩

/-- List response with one assigned custom role, one built-in role and one
unassigned custom role, used to exercise the list path. -/
def defsW : List UnifiedRoleDefinition :=
  [⟨some "d1", some "desc", some "Custom Role", some "t1", some false, []⟩,
   ⟨some "d2", none, some "Builtin Role", some "t2", some true, []⟩,
   ⟨some "d3", none, some "Unassigned Role", some "t9", some false, []⟩]

/-- Assignments response with a duplicate principal and two distinct roles. -/
def assignsW : List UnifiedRoleAssignment :=
  [⟨some "t1", some "p1"⟩, ⟨some "t2", some "p2"⟩,
   ⟨some "t1", some "p1"⟩, ⟨some "t1", some "p3"⟩]

/-- Environment in which every Graph call of the list path succeeds. -/
def envW : GraphEnv :=
  ⟨Except.ok (), Except.ok defsW, Except.ok assignsW, fun _ => Except.error ⟨"unused"⟩⟩

/-- Query data with no row limit: `RowsRemaining` never reports 0. -/
def dNoLimit : QueryData := ⟨none, fun _ => -1⟩

theorem listAdCustomRoles_streams_iff_witness :
    (∀ a ∈ assignsW, a.roleDefinitionId.isSome ∧ a.principalId.isSome) ∧
    (∀ r ∈ defsW, r.isBuiltIn.isSome ∧ (r.isBuiltIn = some false → r.templateId.isSome)) ∧
    listAdCustomRoles envW dNoLimit = some ([], rowsSpec defsW assignsW, Except.ok ()) ∧
    rowsSpec defsW assignsW =
      [⟨⟨some "d1", some "desc", some "Custom Role", some "t1", some false, []⟩,
        ["p1", "p3"]⟩] :=
  ⟨by decide, by decide,
    (listAdCustomRoles_streams_iff envW dNoLimit defsW assignsW rfl rfl rfl
      (by decide) (by decide) (fun n => by simp [dNoLimit])).1,
    by decide⟩

theorem buildIds_first_occurrence_witness :
    (∀ a ∈ assignsW, a.roleDefinitionId.isSome) ∧
    buildIds assignsW [] = some ["t1", "t2"] :=
  ⟨by decide, by
    rw [(buildIds_first_occurrence assignsW (by decide)).1]
    decide⟩

theorem getMembersFromId_first_occurrence_witness :
    (envW.getClient = Except.ok () ∧ envW.roleAssignments = Except.ok assignsW ∧
      (∀ a ∈ assignsW, a.roleDefinitionId.isSome ∧ a.principalId.isSome)) ∧
    getMembersFromId envW "t1" = some ([], Except.ok ["p1", "p3"]) :=
  ⟨⟨rfl, rfl, by decide⟩, by
    rw [(getMembersFromId_first_occurrence envW "t1" assignsW rfl rfl (by decide)).1]
    have hms : memberSpec assignsW "t1" = ["p1", "p3"] := by decide
    rw [hms]⟩

/-- Role definition whose `id`, `displayName` and `templateId` pointers are all
nil, as the Graph SDK permits. -/
def roleNilFields : UnifiedRoleDefinition := ⟨none, none, none, none, some false, []⟩

/-- Hydrate item wrapping `roleNilFields`. -/
def itemNilFields : RoleDefinition := ⟨roleNilFields, []⟩

/-- C5 counterexample: the claim says every transform null-checks the SDK fields
it reads and returns a value without panicking on every hydrate item, including
ones whose `id`, `displayName` or `templateId` pointer is nil. On such an item
`getRoleId`, `getRoleDisplayName` and `getRoleTemplateId` all dereference the nil
pointer (result `none` = panic): lines 184, 197 and 202 of the azuread copy have
no nil check. -/
theorem getRole_transforms_nil_deref :
    getRoleId itemNilFields = none ∧
    getRoleDisplayName itemNilFields = none ∧
    getRoleTemplateId itemNilFields = none :=
  ⟨rfl, rfl, rfl⟩

/-- C5 amended: `getRoleDescripsion`, `getCustomRoleTitle`, `getCustomRoleMembers`
and `getRolePermissions` (the latter total by construction) never panic, but
`getRoleId`, `getRoleDisplayName` and `getRoleTemplateId` dereference the `id`,
`displayName` and `templateId` pointers with no nil check and panic exactly when
the respective pointer is nil. -/
theorem transforms_null_check_amended :
    (∀ data : RoleDefinition,
      (getRoleDescripsion data).isSome ∧ (getCustomRoleTitle data).isSome ∧
      (getCustomRoleMembers data).isSome) ∧
    (∀ data : RoleDefinition, (getRoleId data).isSome ↔ data.role.id.isSome) ∧
    (∀ data : RoleDefinition, (getRoleDisplayName data).isSome ↔ data.role.displayName.isSome) ∧
    (∀ data : RoleDefinition, (getRoleTemplateId data).isSome ↔ data.role.templateId.isSome) := by
  refine ⟨fun data => ⟨?_, ?_, ?_⟩, fun data => Iff.rfl, fun data => Iff.rfl,
    fun data => Iff.rfl⟩
  · cases h : data.role.description <;> simp [getRoleDescripsion, h]
  · simp [getCustomRoleTitle]
  · simp [getCustomRoleMembers]

/-- C6: the `Get` operation's ignore configuration classifies an error as
ignorable exactly when its code matches `"Request_ResourceNotFound"` or
`"Invalid object identifier"`, and ignores no other error. -/
theorem shouldIgnore_iff_known_codes (errCode : String) :
    tableAzureAdCustomRoleShouldIgnore errCode = true ↔
      errCode = "Request_ResourceNotFound" ∨ errCode = "Invalid object identifier" := by
  constructor
  · intro h
    simp only [tableAzureAdCustomRoleShouldIgnore, isIgnorableErrorPredicate,
      List.any_cons, List.any_nil, Bool.or_false, Bool.or_eq_true, beq_iff_eq] at h
    rcases h with h | h
    · exact Or.inl h.symm
    · exact Or.inr h.symm
  · intro h
    rcases h with h | h <;>
      simp [tableAzureAdCustomRoleShouldIgnore, isIgnorableErrorPredicate, h]

/-- C7: for every hydrate item, `getRolePermissions` returns one mapping per role
permission (first conjunct), each holding exactly the keys
`AllowedResourceActions`, `ExcludedResourceActions` and `condition` in insertion
order (second conjunct), with a nil allowed- or excluded-actions slice coalesced
to an empty string list (third conjunct, which also shows the order-preserving
`map` shape and that the empty permission list yields the empty — never nil —
list); the function is total, so it never returns an error. -/
theorem getRolePermissions_shape (data : RoleDefinition) :
    (getRolePermissions data).length = data.role.rolePermissions.length ∧
    (∀ m ∈ getRolePermissions data,
      m.map Prod.fst = ["AllowedResourceActions", "ExcludedResourceActions", "condition"]) ∧
    getRolePermissions data = data.role.rolePermissions.map (fun per =>
      [("AllowedResourceActions", ColValue.strs (per.allowedResourceActions.getD [])),
       ("ExcludedResourceActions", ColValue.strs (per.excludedResourceActions.getD [])),
       ("condition", ColValue.str per.condition)]) := by
  have hpm : ∀ per : UnifiedRolePermission, permissionMapping per =
      [("AllowedResourceActions", ColValue.strs (per.allowedResourceActions.getD [])),
       ("ExcludedResourceActions", ColValue.strs (per.excludedResourceActions.getD [])),
       ("condition", ColValue.str per.condition)] := by
    intro per
    cases ha : per.allowedResourceActions <;> cases he : per.excludedResourceActions <;>
      simp [permissionMapping, ha, he]
  refine ⟨by simp [getRolePermissions], ?_, ?_⟩
  · intro m hm
    obtain ⟨per, _, rfl⟩ := List.mem_map.mp hm
    rfl
  · rw [getRolePermissions]
    exact List.map_congr_left (fun per _ => hpm per)

/-- Role definition carrying two permissions with nil slices in both positions. -/
def itemPermW : RoleDefinition :=
  ⟨⟨some "d", none, some "n", some "t", some false,
    [⟨none, some ["e1"], some "cond"⟩, ⟨some ["a1"], none, none⟩]⟩, []⟩

theorem getRolePermissions_shape_witness :
    getRolePermissions itemPermW =
      [[("AllowedResourceActions", ColValue.strs []),
        ("ExcludedResourceActions", ColValue.strs ["e1"]),
        ("condition", ColValue.str (some "cond"))],
       [("AllowedResourceActions", ColValue.strs ["a1"]),
        ("ExcludedResourceActions", ColValue.strs []),
        ("condition", ColValue.str none)]] ∧
    (getRolePermissions itemPermW).length = 2 := by
  refine ⟨?_, ?_⟩
  · rw [(getRolePermissions_shape itemPermW).2.2]
    decide
  · rw [(getRolePermissions_shape itemPermW).1]
    decide

/-- C9: whenever the equals-qual on column `id` carries the empty string,
`getAdCustomRole` immediately returns `(nil, nil)` — no error, no log entry, and
a result independent of the Graph environment (the statement holds for every
`env`, so no client construction or API call can influence it). -/
theorem getAdCustomRole_empty_id (env : GraphEnv) (d : QueryData)
    (h : d.equalsQualId = some "") :
    getAdCustomRole env d = some ([], Except.ok none) := by
  simp [getAdCustomRole, h]

/-- Query data whose `id` equals-qual is the empty string. -/
def dEmptyQual : QueryData := ⟨some "", fun _ => -1⟩

theorem getAdCustomRole_empty_id_witness :
    dEmptyQual.equalsQualId = some "" ∧
    getAdCustomRole envW dEmptyQual = some ([], Except.ok none) :=
  ⟨rfl, getAdCustomRole_empty_id envW dEmptyQual rfl⟩

/-- Environment whose role-assignments fetch fails. -/
def envAssignErrC2 : GraphEnv :=
  ⟨Except.ok (), Except.ok [], Except.error ⟨"throttled"⟩, fun _ => Except.error ⟨"throttled"⟩⟩

/-- C2 (evidence of the code bug): when the role-assignments fetch inside the
azuread copy's `getMembersFromId` fails, the error is silently discarded (the
empty `if err != nil` branch marked `todo fix` at lines 229-231) and the nil
response is dereferenced by the following loop: the function panics (`none`),
producing no log entry and no `getErrorObject` result — whereas the claim (and
the part_000 copy, second conjunct) say the error is logged and the
`getErrorObject` object returned. -/
theorem getMembersFromId_swallows_fetch_error :
    getMembersFromId envAssignErrC2 "rid" = none ∧
    Part000.getMembersFromId envAssignErrC2 "rid" =
      some ([⟨"azuread_custom_role", "list_custom_role_error", ⟨"throttled"⟩⟩],
        Except.error ⟨"throttled"⟩) :=
  ⟨rfl, rfl⟩

/-- C10: with the fetches successful and every dereferenced pointer non-nil (so
the loop completes or stops only at the limit check), the rows streamed by
`listAdCustomRoles` are the concatenation of the first `k` whole per-definition
row groups for some `k`: the `RowsRemaining` check sits only between outer-loop
iterations, so the group of the definition being processed is always streamed
completely; if the run stops early (`k < defs.length`) then `RowsRemaining`
reports 0 right after group `k`, the function returns immediately, and no later
item is streamed; at no earlier group boundary did it report 0 (last conjunct). -/
theorem listAdCustomRoles_limit_truncation (env : GraphEnv) (d : QueryData)
    (defs : List UnifiedRoleDefinition) (assigns : List UnifiedRoleAssignment)
    (hc : env.getClient = Except.ok ())
    (hdefs : env.roleDefinitions = Except.ok defs)
    (hassigns : env.roleAssignments = Except.ok assigns)
    (hA : ∀ a ∈ assigns, a.roleDefinitionId.isSome ∧ a.principalId.isSome)
    (hD : ∀ r ∈ defs, r.isBuiltIn.isSome ∧ (r.isBuiltIn = some false → r.templateId.isSome)) :
    ∃ k ≤ defs.length,
      listAdCustomRoles env d =
        some ([], ((listGroups env defs assigns).take k).flatten, Except.ok ()) ∧
      (k < defs.length →
        d.rowsRemainingFn ((listGroups env defs assigns).take k).flatten.length = 0) ∧
      (∀ j, j + 1 < k →
        d.rowsRemainingFn ((listGroups env defs assigns).take (j + 1)).flatten.length ≠ 0) := by
  obtain ⟨k, hkle, heq, hstop, hmin⟩ := joinUntil_take d (listGroups env defs assigns) []
  have hlen : (listGroups env defs assigns).length = defs.length := by simp [listGroups]
  refine ⟨k, hlen ▸ hkle, ?_, ?_, ?_⟩
  · rw [listAdCustomRoles_run env d defs assigns hc hdefs hassigns hA hD, heq]
    simp
  · intro hk
    have h2 := hstop (by rw [hlen]; exact hk)
    simpa using h2
  · intro j hj
    have h2 := hmin j hj
    simpa using h2

/-- Three assigned custom roles, to exercise the limit check. -/
def defsLim : List UnifiedRoleDefinition :=
  [⟨some "e1", none, some "R1", some "u1", some false, []⟩,
   ⟨some "e2", none, some "R2", some "u2", some false, []⟩,
   ⟨some "e3", none, some "R3", some "u3", some false, []⟩]

/-- One assignment per role in `defsLim`. -/
def assignsLim : List UnifiedRoleAssignment :=
  [⟨some "u1", some "q1"⟩, ⟨some "u2", some "q2"⟩, ⟨some "u3", some "q3"⟩]

/-- Environment serving `defsLim` and `assignsLim`. -/
def envLim : GraphEnv :=
  ⟨Except.ok (), Except.ok defsLim, Except.ok assignsLim, fun _ => Except.error ⟨"unused"⟩⟩

/-- Query data with a row limit of 2. -/
def dLimit2 : QueryData := ⟨none, fun n => 2 - (n : Int)⟩

theorem listAdCustomRoles_limit_truncation_witness :
    ((∀ a ∈ assignsLim, a.roleDefinitionId.isSome ∧ a.principalId.isSome) ∧
     (∀ r ∈ defsLim, r.isBuiltIn.isSome ∧ (r.isBuiltIn = some false → r.templateId.isSome))) ∧
    (∃ k ≤ defsLim.length,
      listAdCustomRoles envLim dLimit2 =
        some ([], ((listGroups envLim defsLim assignsLim).take k).flatten, Except.ok ()) ∧
      (k < defsLim.length →
        dLimit2.rowsRemainingFn ((listGroups envLim defsLim assignsLim).take k).flatten.length = 0) ∧
      (∀ j, j + 1 < k →
        dLimit2.rowsRemainingFn
          ((listGroups envLim defsLim assignsLim).take (j + 1)).flatten.length ≠ 0)) :=
  ⟨⟨by decide, by decide⟩,
   listAdCustomRoles_limit_truncation envLim dLimit2 defsLim assignsLim rfl rfl rfl
     (by decide) (by decide)⟩

lemma getMembersFromId_eq_of_ok (env : GraphEnv) (id : String)
    (l : List UnifiedRoleAssignment)
    (hc : env.getClient = Except.ok ()) (ha : env.roleAssignments = Except.ok l) :
    Part000.getMembersFromId env id = getMembersFromId env id := by
  simp [getMembersFromId, Part000.getMembersFromId, hc, ha]

lemma innerLoop_agree (env : GraphEnv) (r : UnifiedRoleDefinition)
    (l : List UnifiedRoleAssignment)
    (hc : env.getClient = Except.ok ()) (ha : env.roleAssignments = Except.ok l) :
    ∀ (ids : List String) (logs : List LogEntry) (rows : List RoleDefinition),
    Part000.innerLoop env r ids logs rows =
      (match innerLoop env r ids logs rows with
       | none => StepRes.panicked
       | some (logs2, rows2) => StepRes.continued logs2 rows2) := by
  intro ids
  induction ids with
  | nil => intro logs rows; simp [innerLoop, Part000.innerLoop]
  | cons id rest ih =>
    intro logs rows
    cases htid : r.templateId with
    | none => simp [innerLoop, Part000.innerLoop, htid]
    | some tid =>
      by_cases hid : id = tid
      · subst hid
        have hmz : getMembersFromId env id =
            (match membersLoop l id [] with
             | none => none
             | some ms => some ([], Except.ok ms)) := by
          simp [getMembersFromId, hc, ha]
        have hmz2 := getMembersFromId_eq_of_ok env id l hc ha
        cases hm : membersLoop l id [] with
        | none =>
          simp [innerLoop, Part000.innerLoop, htid, hmz2, hmz, hm]
        | some ms =>
          simp [innerLoop, Part000.innerLoop, htid, hmz2, hmz, hm, ih]
      · simp [innerLoop, Part000.innerLoop, htid, hid, ih logs rows]

lemma outerLoop_agree (env : GraphEnv) (d : QueryData)
    (l : List UnifiedRoleAssignment)
    (hc : env.getClient = Except.ok ()) (ha : env.roleAssignments = Except.ok l) :
    ∀ (defs : List UnifiedRoleDefinition) (ids : List String) (logs : List LogEntry)
      (rows : List RoleDefinition),
    Part000.outerLoop env d defs ids logs rows = outerLoop env d defs ids logs rows := by
  intro defs
  induction defs with
  | nil => intro ids logs rows; simp [outerLoop, Part000.outerLoop]
  | cons r rest ih =>
    intro ids logs rows
    cases hbi : r.isBuiltIn with
    | none => simp [outerLoop, Part000.outerLoop, hbi]
    | some b =>
      cases b with
      | true =>
        by_cases hz : d.rowsRemainingFn rows.length = 0
        · simp [outerLoop, Part000.outerLoop, hbi, hz]
        · simp [outerLoop, Part000.outerLoop, hbi, hz, ih]
      | false =>
        have hin := innerLoop_agree env r l hc ha ids logs rows
        cases hi : innerLoop env r ids logs rows with
        | none => simp [outerLoop, Part000.outerLoop, hbi, hin, hi]
        | some p =>
          obtain ⟨logs2, rows2⟩ := p
          by_cases hz : d.rowsRemainingFn rows2.length = 0
          · simp [outerLoop, Part000.outerLoop, hbi, hin, hi, hz]
          · simp [outerLoop, Part000.outerLoop, hbi, hin, hi, hz, ih]

lemma listAdCustomRoles_copies_eq (env : GraphEnv) (d : QueryData) :
    Part000.listAdCustomRoles env d = listAdCustomRoles env d := by
  cases hc : env.getClient with
  | error e => simp [listAdCustomRoles, Part000.listAdCustomRoles, hc]
  | ok u =>
    cases u
    cases hdefs : env.roleDefinitions with
    | error e => simp [listAdCustomRoles, Part000.listAdCustomRoles, hc, hdefs]
    | ok defs =>
      cases ha : env.roleAssignments with
      | error e => simp [listAdCustomRoles, Part000.listAdCustomRoles, hc, hdefs, ha]
      | ok l =>
        cases hids : buildIds l [] with
        | none => simp [listAdCustomRoles, Part000.listAdCustomRoles, hc, hdefs, ha, hids]
        | some ids =>
          simp [listAdCustomRoles, Part000.listAdCustomRoles, hc, hdefs, ha, hids,
            outerLoop_agree env d l hc ha defs ids]

lemma getAdCustomRole_agree_behavior (env : GraphEnv) (d : QueryData)
    (l : List UnifiedRoleAssignment) (ha : env.roleAssignments = Except.ok l) :
    (getAdCustomRole env d).map Prod.snd = (Part000.getAdCustomRole env d).map Prod.snd := by
  by_cases hq : d.equalsQualId.getD "" = ""
  · simp [getAdCustomRole, Part000.getAdCustomRole, hq]
  · cases hc : env.getClient with
    | error e => simp [getAdCustomRole, Part000.getAdCustomRole, hq, hc]
    | ok u =>
      cases u
      cases hby : env.roleDefinitionById (d.equalsQualId.getD "") with
      | error e => simp [getAdCustomRole, Part000.getAdCustomRole, hq, hc, hby]
      | ok role =>
        have heq := getMembersFromId_eq_of_ok env (d.equalsQualId.getD "") l hc ha
        cases hm : getMembersFromId env (d.equalsQualId.getD "") with
        | none => simp [getAdCustomRole, Part000.getAdCustomRole, hq, hc, hby, heq, hm]
        | some p =>
          obtain ⟨mlogs, res⟩ := p
          cases res with
          | error e =>
            simp [getAdCustomRole, Part000.getAdCustomRole, hq, hc, hby, heq, hm]
          | ok ms =>
            simp [getAdCustomRole, Part000.getAdCustomRole, hq, hc, hby, heq, hm]

/-- Environment whose role-assignments fetch fails, used to separate the two
copies. -/
def envDownC8 : GraphEnv :=
  ⟨Except.ok (), Except.ok [], Except.error ⟨"down"⟩, fun _ => Except.error ⟨"down"⟩⟩

/-- C8 counterexample: the two copies are not extensionally equal. With the
role-assignments fetch failing, the azuread copy's `getMembersFromId` panics
(`none`: it discards the error and dereferences the nil response) while the
part_000 copy logs the error and returns the `getErrorObject` result, so they
fail in different ways on the same input. -/
theorem copies_diverge_on_assignments_error :
    getMembersFromId envDownC8 "r" = none ∧
    Part000.getMembersFromId envDownC8 "r" =
      some ([⟨"azuread_custom_role", "list_custom_role_error", ⟨"down"⟩⟩],
        Except.error ⟨"down"⟩) ∧
    getMembersFromId envDownC8 "r" ≠ Part000.getMembersFromId envDownC8 "r" := by
  refine ⟨rfl, rfl, fun h => ?_⟩
  have h2 : (none : Option (List LogEntry × Except GraphError (List String))) =
      some ([⟨"azuread_custom_role", "list_custom_role_error", ⟨"down"⟩⟩],
        Except.error ⟨"down"⟩) := h
  exact Option.noConfusion h2

/-- C8 amended: the two copies agree wherever the role-assignments endpoint does
not fail: the list functions are extensionally equal on every input (first
conjunct), `getMembersFromId` and `getAdCustomRole` return the same values and
fail in the same cases whenever the role-assignments fetch succeeds (second and
third conjuncts, results compared without the log trail, whose location strings
differ between the copies), and every transform function is extensionally equal
(fourth conjunct). They differ only as in the counterexample: when the
role-assignments fetch fails, the part_000 copy returns the logged error object
while the azuread copy panics. -/
theorem copies_agree_amended :
    (∀ (env : GraphEnv) (d : QueryData),
      Part000.listAdCustomRoles env d = listAdCustomRoles env d) ∧
    (∀ (env : GraphEnv) (id : String) (l : List UnifiedRoleAssignment),
      env.roleAssignments = Except.ok l →
      (getMembersFromId env id).map Prod.snd = (Part000.getMembersFromId env id).map Prod.snd) ∧
    (∀ (env : GraphEnv) (d : QueryData) (l : List UnifiedRoleAssignment),
      env.roleAssignments = Except.ok l →
      (getAdCustomRole env d).map Prod.snd = (Part000.getAdCustomRole env d).map Prod.snd) ∧
    (∀ data : RoleDefinition,
      getRoleId data = Part000.getRoleId data ∧
      getRoleDescripsion data = Part000.getRoleDescripsion data ∧
      getRoleDisplayName data = Part000.getRoleDisplayName data ∧
      getRoleTemplateId data = Part000.getRoleTemplateId data ∧
      getCustomRoleTitle data = Part000.getCustomRoleTitle data ∧
      getCustomRoleMembers data = Part000.getCustomRoleMembers data ∧
      getRolePermissions data = Part000.getRolePermissions data) := by
  refine ⟨listAdCustomRoles_copies_eq, ?_, ?_, ?_⟩
  · intro env id l ha
    cases hc : env.getClient with
    | error e => simp [getMembersFromId, Part000.getMembersFromId, hc]
    | ok u =>
      cases u
      rw [getMembersFromId_eq_of_ok env id l hc ha]
  · intro env d l ha
    exact getAdCustomRole_agree_behavior env d l ha
  · intro data
    exact ⟨rfl, rfl, rfl, rfl, rfl, rfl, rfl⟩

theorem copies_agree_amended_witness :
    (envW.roleAssignments = Except.ok assignsW ∧
      (getMembersFromId envW "t1").map Prod.snd =
        (Part000.getMembersFromId envW "t1").map Prod.snd) ∧
    (getAdCustomRole envW dNoLimit).map Prod.snd =
      (Part000.getAdCustomRole envW dNoLimit).map Prod.snd :=
  ⟨⟨rfl, copies_agree_amended.2.1 envW "t1" assignsW rfl⟩,
    copies_agree_amended.2.2.1 envW dNoLimit assignsW rfl⟩
